import Mathlib

/-!
Verification of the hyper-fetch core: request identity (key derivation),
progress helpers, dispatcher queue engine, retry handling and the mocker's
response cycling.  Pure functions are translated from
`src/packages/core/lib/command/fetch.command.utils.ts`; the dispatcher and
mocker state machines, whose implementation files are not part of the
corpus, are modelled from the specification (sections 4.4 and 9 of the
design document) and marked as such.
-/

namespace HyperFetch

/-- A JavaScript runtime value as seen by `stringifyKey`: a string, `null`,
`undefined`, or any other value carrying the outcome of `JSON.stringify`
on it (`some s` when serialization yields the string `s`; `none` when
`JSON.stringify` throws or returns a non-string such as `undefined`).
The serialization is attached to the value, which makes it deterministic
within one run by construction, exactly as in one JS process. -/
inductive JSValue where
  | vStr (s : String)
  | vNull
  | vUndefined
  | vOther (serialized : Option String)
deriving DecidableEq

/-- Translation of `stringifyKey` from `fetch.command.utils.ts`:
strings pass through, `null`/`undefined` give `""`, other values give
their `JSON.stringify` output, and a failed or non-string serialization
gives `""` (the `try`/`catch` and the `typeof data !== "string"` guard). -/
def stringifyKey (value : JSValue) : String :=
  match value with
  | .vStr s => s
  | .vNull => ""
  | .vUndefined => ""
  | .vOther (some data) => data
  | .vOther none => ""

/-- A command as consumed by `getCommandKey`: either a live
`FetchCommandInstance` (with `method`, `endpoint`, `queryParams` and its
`options.endpoint` route template) or a `FetchCommandDump` (with
`values.method`, `values.endpoint`, `values.queryParams` and
`commandOptions.endpoint`), distinguished in the source by the
`"values" in command` test. -/
inductive CommandLike where
  | inst (method endpoint queryParams : JSValue) (optionsEndpoint : String)
  | dump (method endpoint queryParams : JSValue) (commandOptionsEndpoint : String)
deriving DecidableEq

/-- The `method` field of a command (or of a dump's `values`). -/
def CommandLike.methodV : CommandLike → JSValue
  | .inst m _ _ _ => m
  | .dump m _ _ _ => m

/-- The `endpoint` field of a command (or of a dump's `values`). -/
def CommandLike.endpointV : CommandLike → JSValue
  | .inst _ e _ _ => e
  | .dump _ e _ _ => e

/-- The `queryParams` field of a command (or of a dump's `values`). -/
def CommandLike.queryParamsV : CommandLike → JSValue
  | .inst _ _ q _ => q
  | .dump _ _ q _ => q

/-- Translation of `getCommandKey` from `fetch.command.utils.ts`: the cache
key is the stringified method, endpoint and query params joined with `_`;
with `useInitialValues` the raw route template stands in for the endpoint
and the query-params part is empty. -/
def getCommandKey (command : CommandLike) (useInitialValues : Bool) : String :=
  match command with
  | .dump m e q commandOptionsEndpoint =>
      let methodKey := stringifyKey m
      let endpointKey := if useInitialValues then commandOptionsEndpoint else stringifyKey e
      let queryParamsKey := if useInitialValues then "" else stringifyKey q
      methodKey ++ "_" ++ endpointKey ++ "_" ++ queryParamsKey
  | .inst m e q optionsEndpoint =>
      let methodKey := stringifyKey m
      let endpointKey := if useInitialValues then optionsEndpoint else stringifyKey e
      let queryParamsKey := if useInitialValues then "" else stringifyKey q
      methodKey ++ "_" ++ endpointKey ++ "_" ++ queryParamsKey

/-- Translation of `getAbortKey` from `fetch.command.utils.ts`. -/
def getAbortKey (method : String) (baseUrl : String) (endpoint : String)
    (cancelable : Bool) : String :=
  method ++ "_" ++ baseUrl ++ endpoint ++ "_" ++ (if cancelable then "true" else "false")

/-- A JavaScript number for the progress helpers: `NaN`, the two
infinities, or a finite value (modelled as a rational; the claims under
verification only exercise guard branches, never float rounding error). -/
inductive JSNum where
  | nan
  | posInf
  | negInf
  | num (q : ℚ)
deriving DecidableEq

/-- A possibly-missing numeric field of a progress event: `none` is
`undefined` (the field absent from the event object). -/
abbrev JSNumField := Option JSNum

/-- JS boolean coercion of a possibly-missing number: `undefined`, `NaN`
and `0` are falsy, everything else (infinities included) truthy; this is
the `!loaded || !total` test of `getProgressValue`. -/
def jsFalsyField (x : JSNumField) : Bool :=
  match x with
  | none => true
  | some .nan => true
  | some (.num q) => q == 0
  | some _ => false

/-- Numeric coercion applied by JS arithmetic to a possibly-missing
operand: `undefined` becomes `NaN`. -/
def toNumber (x : JSNumField) : JSNum :=
  x.getD .nan

/-- JS multiplication on numbers (no negative zero in the model). -/
def jsMul : JSNum → JSNum → JSNum
  | .nan, _ => .nan
  | _, .nan => .nan
  | .num a, .num b => .num (a * b)
  | .posInf, .posInf => .posInf
  | .posInf, .negInf => .negInf
  | .negInf, .posInf => .negInf
  | .negInf, .negInf => .posInf
  | .posInf, .num b => if b == 0 then .nan else if 0 < b then .posInf else .negInf
  | .num a, .posInf => if a == 0 then .nan else if 0 < a then .posInf else .negInf
  | .negInf, .num b => if b == 0 then .nan else if 0 < b then .negInf else .posInf
  | .num a, .negInf => if a == 0 then .nan else if 0 < a then .negInf else .posInf

/-- JS division on numbers (no negative zero in the model): division by
zero yields a signed infinity, `0/0` and `inf/inf` yield `NaN`, a finite
value over an infinity yields `0`. -/
def jsDiv : JSNum → JSNum → JSNum
  | .nan, _ => .nan
  | _, .nan => .nan
  | .num a, .num b =>
      if b == 0 then (if a == 0 then .nan else if 0 < a then .posInf else .negInf)
      else .num (a / b)
  | .posInf, .posInf => .nan
  | .posInf, .negInf => .nan
  | .negInf, .posInf => .nan
  | .negInf, .negInf => .nan
  | .posInf, .num b => if 0 ≤ b then .posInf else .negInf
  | .negInf, .num b => if 0 ≤ b then .negInf else .posInf
  | .num _, .posInf => .num 0
  | .num _, .negInf => .num 0

/-- JS subtraction on numbers. -/
def jsSub : JSNum → JSNum → JSNum
  | .nan, _ => .nan
  | _, .nan => .nan
  | .num a, .num b => .num (a - b)
  | .posInf, .posInf => .nan
  | .negInf, .negInf => .nan
  | .posInf, _ => .posInf
  | .negInf, _ => .negInf
  | .num _, .posInf => .negInf
  | .num _, .negInf => .posInf

/-- JS strict equality `===` on two possibly-missing numbers:
`undefined === undefined` holds, `NaN` equals nothing. -/
def jsStrictEq (a b : JSNumField) : Bool :=
  match a, b with
  | none, none => true
  | some (.num x), some (.num y) => x == y
  | some .posInf, some .posInf => true
  | some .negInf, some .negInf => true
  | _, _ => false

/-- JS truthiness of a number (the `uploadSpeed ? _ : null` test). -/
def jsTruthy (x : JSNum) : Bool :=
  match x with
  | .nan => false
  | .num q => !(q == 0)
  | _ => true

/-- Model of `Number(x.toFixed(0))`: round a finite value to the nearest integer,
ties toward positive infinity; `NaN` and infinities pass through. -/
def jsToFixedZero : JSNum → JSNum
  | .nan => .nan
  | .posInf => .posInf
  | .negInf => .negInf
  | .num q => .num ((⌊q + 1/2⌋ : ℤ) : ℚ)

/-- The `ClientProgressEvent` shape `{ loaded, total }`; either field may
be missing. -/
structure ClientProgressEvent where
  loaded : JSNumField
  total : JSNumField
deriving DecidableEq

/-- Translation of `getProgressValue`: `0` when `loaded` or `total` is
falsy, otherwise `Number(((loaded * 100) / total).toFixed(0))`. -/
def getProgressValue (e : ClientProgressEvent) : JSNum :=
  if jsFalsyField e.loaded || jsFalsyField e.total then .num 0
  else jsToFixedZero (jsDiv (jsMul (toNumber e.loaded) (.num 100)) (toNumber e.total))

/-- Translation of `getRequestEta`: dates are millisecond timestamps
(rationals); `+progressDate - +startDate || 1` guards a zero elapsed
time; returns `{ sizeLeft, timeLeft }` where `timeLeft` may be `null`. -/
def getRequestEta (startDate progressDate : ℚ) (e : ClientProgressEvent) :
    Option JSNum × JSNum :=
  let timeElapsedRaw := progressDate - startDate
  let timeElapsed : ℚ := if timeElapsedRaw == 0 then 1 else timeElapsedRaw
  let uploadSpeed := jsDiv (toNumber e.loaded) (.num timeElapsed)
  let sizeLeft := jsSub (toNumber e.total) (toNumber e.loaded)
  let estimatedTimeValue : Option JSNum :=
    if jsTruthy uploadSpeed then some (jsDiv sizeLeft uploadSpeed) else none
  let timeLeft : Option JSNum :=
    if jsStrictEq e.total e.loaded then some (.num 0) else estimatedTimeValue
  (timeLeft, sizeLeft)

/-- The `FetchProgressType` record returned by `getProgressData`
(`timeLeft` is `number | null`; `total` and `loaded` echo the raw event
fields, hence possibly missing). -/
structure FetchProgressType where
  progress : JSNum
  timeLeft : Option JSNum
  sizeLeft : JSNum
  total : JSNumField
  loaded : JSNumField
  startTimestamp : ℚ
deriving DecidableEq

/-- Translation of `getProgressData`: when `total` or `loaded` is `NaN`
(the `Number.isNaN` guard) every progress field is zeroed; otherwise the
record is assembled from `getRequestEta` and `getProgressValue`. -/
def getProgressData (requestStartTime progressDate : ℚ)
    (progressEvent : ClientProgressEvent) : FetchProgressType :=
  if progressEvent.total == some .nan || progressEvent.loaded == some .nan then
    { progress := .num 0, timeLeft := some (.num 0), sizeLeft := .num 0
      total := some (.num 0), loaded := some (.num 0)
      startTimestamp := requestStartTime }
  else
    let eta := getRequestEta requestStartTime progressDate progressEvent
    { progress := getProgressValue progressEvent
      timeLeft := eta.1
      sizeLeft := eta.2
      total := progressEvent.total
      loaded := progressEvent.loaded
      startTimestamp := requestStartTime }

/-- The `queueType` argument of `getCommandDispatcher`. -/
inductive QueueType where
  | auto
  | fetch
  | submit
deriving DecidableEq

/-- The builder as read by `getCommandDispatcher`: its two dispatchers,
abstracted over the dispatcher type. -/
structure Builder (D : Type) where
  fetchDispatcher : D
  submitDispatcher : D

/-- A command as read by `getCommandDispatcher`: its builder and its HTTP
method string. -/
structure DispatchCommand (D : Type) where
  builder : Builder D
  method : String

/-- Value of `HttpMethodsEnum.get` from `constants/http.constants`. -/
def httpGet : String := "GET"

/-- Translation of `getCommandDispatcher` from `fetch.command.utils.ts`:
the fetch dispatcher is chosen (flagged `true`) when the queue type is
`fetch`, or when it is `auto` and the method is GET; otherwise the submit
dispatcher is chosen (flagged `false`). -/
def getCommandDispatcher {D : Type} (command : DispatchCommand D)
    (queueType : QueueType) : D × Bool :=
  let isGet := command.method == httpGet
  let isFetchDispatcher := (queueType == .auto && isGet) || queueType == .fetch
  ((if isFetchDispatcher then command.builder.fetchDispatcher
    else command.builder.submitDispatcher), isFetchDispatcher)

/-- The error classes of the core's error taxonomy (spec section 7). -/
inductive ErrorKind where
  | offline
  | canceled
  | timeout
  | transport
deriving DecidableEq

/-- The response envelope `{ data, error, success, extra, isOffline }`
delivered for one storage element; payloads are abstracted to naturals
and `extra` to a string association list. -/
structure Envelope where
  data : Option Nat
  error : Option ErrorKind
  success : Bool
  extra : List (String × String)
  isOffline : Bool
deriving DecidableEq

/-- The envelope synthesized for an offline short-circuit:
`{data: null, error: offline-error, success: false, extra: {}, isOffline: true}`. -/
def offlineEnvelope : Envelope :=
  { data := none, error := some .offline, success := false, extra := [], isOffline := true }

namespace Dispatcher

/-- Modelled from the spec: the behaviour options of a request descriptor
relevant to the dispatcher (the `Dispatcher` implementation file is not in
the corpus; its `add`/`performRequest`/`flushQueue` semantics follow spec
section 4.4). `retry = none` is `retry: false`. -/
structure DCommand where
  queueKey : String
  cacheKey : String
  deduplicate : Bool
  cancelable : Bool
  concurrent : Bool
  retry : Option Nat
deriving DecidableEq

/-- Modelled from the spec: a Storage Element — one queued or running unit
of work wrapping a descriptor attempt plus retry bookkeeping. -/
structure StorageElement where
  requestId : Nat
  cmd : DCommand
  retries : Nat
deriving DecidableEq

/-- Modelled from the spec: one queue — its ordered storage elements and
the ids of its currently running requests. -/
structure QueueData where
  requests : List StorageElement
  running : List Nat
deriving DecidableEq

/-- Modelled from the spec: the dispatcher's state — the queue map, the
request-id counter, and a count of adapter invocations (each transition
of an element to running invokes the adapter once). -/
structure DispState where
  queues : List (String × QueueData)
  nextId : Nat
  adapterCalls : Nat
deriving DecidableEq

/-- The dispatcher's initial state: no queues, counter at zero, no
adapter invocations. -/
def initState : DispState := { queues := [], nextId := 0, adapterCalls := 0 }

/-- Look a queue up in the queue map. -/
def queuesGet : List (String × QueueData) → String → Option QueueData
  | [], _ => none
  | (k', q) :: rest, k => if k' = k then some q else queuesGet rest k

/-- Replace or insert a queue in the queue map. -/
def queuesSet : List (String × QueueData) → String → QueueData → List (String × QueueData)
  | [], k, q => [(k, q)]
  | (k', q') :: rest, k, q =>
      if k' = k then (k, q) :: rest else (k', q') :: queuesSet rest k q

/-- A queue with no elements and nothing running (queues are created on
first add and never destroyed; an absent key reads as an empty queue). -/
def emptyQueue : QueueData := { requests := [], running := [] }

/-- The queue stored under a queue key. -/
def getQueue (s : DispState) (key : String) : QueueData :=
  (queuesGet s.queues key).getD emptyQueue

/-- Store a queue under a queue key. -/
def setQueue (s : DispState) (key : String) (q : QueueData) : DispState :=
  { s with queues := queuesSet s.queues key q }

/-- Modelled from the spec: `createStorageElement` wraps a command into a
fresh storage element carrying the next request id and zero retries. -/
def createStorageElement (s : DispState) (cmd : DCommand) : StorageElement :=
  { requestId := s.nextId, cmd := cmd, retries := 0 }

/-- Modelled from the spec: `Dispatcher.add` (spec section 4.4). Locate or
create the queue; if `deduplicate` and an equivalent request (same derived
key) is queued or running, return its id unchanged; else if `cancelable`
and something is running, cancel and replace it and start the new element;
else append the element and start it exactly when `concurrent` holds or
nothing is running. Returns the request id and the new state. -/
def add (s : DispState) (cmd : DCommand) : Nat × DispState :=
  let q := getQueue s cmd.queueKey
  let duplicate :=
    if cmd.deduplicate then
      q.requests.find? (fun el => el.cmd.cacheKey == cmd.cacheKey)
    else none
  match duplicate with
  | some el => (el.requestId, s)
  | none =>
      let id := s.nextId
      let newEl : StorageElement := { requestId := id, cmd := cmd, retries := 0 }
      if cmd.cancelable && !q.running.isEmpty then
        let q' : QueueData :=
          { requests := q.requests.filter (fun el => !q.running.contains el.requestId) ++ [newEl]
            running := [id] }
        (id, { setQueue s cmd.queueKey q' with
                 nextId := id + 1
                 adapterCalls := s.adapterCalls + 1 })
      else
        let shouldStart := cmd.concurrent || q.running.isEmpty
        let q' : QueueData :=
          { requests := q.requests ++ [newEl]
            running := if shouldStart then q.running ++ [id] else q.running }
        (id, { setQueue s cmd.queueKey q' with
                 nextId := id + 1
                 adapterCalls := s.adapterCalls + (if shouldStart then 1 else 0) })

/-- Modelled from the spec: `Dispatcher.performRequest` (spec section
4.4). Re-entry guarded: an element already running is not dispatched
again. When the app-online collaborator reports offline, the adapter is
not contacted and the element resolves immediately (it is removed from
the queue) with the synthesized offline envelope. Otherwise the element
transitions to running and the adapter is invoked once; its resolution is
asynchronous (`none`). -/
def performRequest (online : Bool) (s : DispState) (el : StorageElement) :
    DispState × Option Envelope :=
  let key := el.cmd.queueKey
  let q := getQueue s key
  if q.running.contains el.requestId then (s, none)
  else if !online then
    let q' : QueueData :=
      { requests := q.requests.filter (fun e => e.requestId != el.requestId)
        running := q.running }
    (setQueue s key q', some offlineEnvelope)
  else
    let q' : QueueData := { requests := q.requests, running := q.running ++ [el.requestId] }
    ({ setQueue s key q' with adapterCalls := s.adapterCalls + 1 }, none)

/-- Modelled from the spec: `Dispatcher.flushQueue` — re-evaluate a
queue's head and start the next eligible element according to
`concurrent` (a non-concurrent element starts only when nothing is
running). -/
def flushQueue (s : DispState) (key : String) : DispState :=
  let q := getQueue s key
  match q.requests.find? (fun el => !q.running.contains el.requestId) with
  | none => s
  | some next =>
      if next.cmd.concurrent || q.running.isEmpty then
        let q' : QueueData := { requests := q.requests, running := q.running ++ [next.requestId] }
        { setQueue s key q' with adapterCalls := s.adapterCalls + 1 }
      else s

/-- A queue all of whose storage elements carry `concurrent := false`. -/
def allNonConcurrent (q : QueueData) : Prop :=
  ∀ el ∈ q.requests, el.cmd.concurrent = false

/-- Modelled from the spec: resolution of a running element — it is
removed from the queue and from the running set, and the queue is
flushed, promoting the next queued element when allowed. -/
def finishRequest (s : DispState) (key : String) (id : Nat) : DispState :=
  let q := getQueue s key
  let q' : QueueData :=
    { requests := q.requests.filter (fun el => el.requestId != id)
      running := q.running.filter (fun i => i != id) }
  flushQueue (setQueue s key q') key

/-- Modelled from the spec: the dispatcher states reachable through the
queue engine's own operations when every command added to queue `k` has
`concurrent := false` (commands targeting other queues are
unconstrained). -/
inductive ReachableNC (k : String) : DispState → Prop
  | init : ReachableNC k initState
  | stepAdd (s : DispState) (cmd : DCommand) :
      ReachableNC k s → (cmd.queueKey = k → cmd.concurrent = false) →
      ReachableNC k (add s cmd).2
  | stepFinish (s : DispState) (key : String) (id : Nat) :
      ReachableNC k s → ReachableNC k (finishRequest s key id)

/-- Modelled from the spec: the retry test of the completion handler —
a failed attempt is retried exactly when the configured retry count is a
number and the element's retry counter is still below it (`retry: false`
never retries). -/
def canRetry (retry : Option Nat) (retries : Nat) : Bool :=
  match retry with
  | none => false
  | some n => retries < n

/-- Modelled from the spec: the attempt loop of a request whose adapter
fails on every attempt, against a configured retry count `n`, starting
from retry counter `retries`. Each round invokes the adapter once; on
failure the counter is incremented and the element re-invoked while
`canRetry` holds, else it resolves with the failure envelope. Returns the
total number of adapter invocations and the resolved envelope. -/
def failingRunAux (n : Nat) (retries : Nat) (failEnv : Envelope) : Nat × Envelope :=
  if h : canRetry (some n) retries then
    let rest := failingRunAux n (retries + 1) failEnv
    (rest.1 + 1, rest.2)
  else (1, failEnv)
termination_by n - retries
decreasing_by
  simp only [canRetry, decide_eq_true_eq] at h
  omega

/-- Modelled from the spec: the complete life of a request with an
always-failing adapter under a retry configuration (`none` is
`retry: false`): total adapter invocations and the final envelope. -/
def failingRun (retry : Option Nat) (failEnv : Envelope) : Nat × Envelope :=
  match retry with
  | none => (1, failEnv)
  | some n => failingRunAux n 0 failEnv

end Dispatcher

namespace Mocker

/-- Modelled from the spec: the mocker's per-request call counter (the
number of prior calls), used to cycle through an array of mocked
responses. -/
structure MockerState where
  requestCount : Nat
deriving DecidableEq

/-- Modelled from the spec: one invocation of a mock registered as an
array of responses — the call with `N` prior calls resolves with array
element `N mod length` and the counter advances. -/
def mockNextValue {α : Type} (responses : List α) (st : MockerState) :
    Option α × MockerState :=
  (responses.get? (st.requestCount % responses.length), { requestCount := st.requestCount + 1 })

/-- Modelled from the spec: `n` successive invocations of an
array-registered mock starting from counter state `st`, collecting the
resolved values in order. -/
def mockRun {α : Type} (responses : List α) : Nat → MockerState → List (Option α)
  | 0, _ => []
  | n + 1, st =>
      let step := mockNextValue responses st
      step.1 :: mockRun responses n step.2

end Mocker

section Theorems

/-- C6: `stringifyKey` is total (never throws): strings pass through,
`null` and `undefined` give the empty string, any other value gives its
deterministic serialization, and a failed serialization gives the empty
string; equal values always stringify identically. -/
theorem claim6_stringifyKey_total :
    (∀ s : String, stringifyKey (.vStr s) = s)
    ∧ stringifyKey .vNull = ""
    ∧ stringifyKey .vUndefined = ""
    ∧ (∀ s : String, stringifyKey (.vOther (some s)) = s)
    ∧ stringifyKey (.vOther none) = ""
    ∧ (∀ v w : JSValue, v = w → stringifyKey v = stringifyKey w) := by
  refine ⟨fun s => rfl, rfl, rfl, fun s => rfl, rfl, fun v w h => by rw [h]⟩

/-- C6 witness: the five behaviours at concrete values. -/
theorem claim6_stringifyKey_total_witness :
    stringifyKey (.vStr "users") = "users"
    ∧ stringifyKey .vNull = ""
    ∧ stringifyKey (.vOther none) = ""
    ∧ stringifyKey (.vOther (some "x")) = stringifyKey (.vOther (some "x")) :=
  ⟨claim6_stringifyKey_total.1 "users", claim6_stringifyKey_total.2.1,
    claim6_stringifyKey_total.2.2.2.2.1,
    claim6_stringifyKey_total.2.2.2.2.2 _ _ rfl⟩

/-- C10: `getCommandDispatcher` returns the fetch dispatcher paired with
`true` exactly when the queue type is `fetch`, or is `auto` and the
command's method is GET; in every other case the submit dispatcher paired
with `false`. -/
theorem claim10_getCommandDispatcher_choice {D : Type}
    (c : DispatchCommand D) (qt : QueueType) :
    ((qt = .fetch ∨ (qt = .auto ∧ c.method = httpGet)) →
      getCommandDispatcher c qt = (c.builder.fetchDispatcher, true))
    ∧ (¬(qt = .fetch ∨ (qt = .auto ∧ c.method = httpGet)) →
      getCommandDispatcher c qt = (c.builder.submitDispatcher, false)) := by
  constructor
  · intro h
    rcases h with h | ⟨h1, h2⟩
    · subst h; simp [getCommandDispatcher]
    · subst h1; simp [getCommandDispatcher, h2]
  · intro h
    push_neg at h
    cases qt with
    | fetch => exact absurd rfl h.1
    | submit => simp [getCommandDispatcher]
    | auto =>
        have hm : c.method ≠ httpGet := h.2 rfl
        simp [getCommandDispatcher, hm]

/-- C10 witness: an `auto` GET command lands on the fetch dispatcher
flagged `true`; an `auto` POST command lands on the submit dispatcher
flagged `false`. -/
theorem claim10_getCommandDispatcher_choice_witness :
    getCommandDispatcher (D := Nat) { builder := ⟨1, 2⟩, method := "GET" } .auto = (1, true)
    ∧ getCommandDispatcher (D := Nat) { builder := ⟨1, 2⟩, method := "POST" } .auto = (2, false) :=
  ⟨(claim10_getCommandDispatcher_choice _ _).1 (Or.inr ⟨rfl, rfl⟩),
    (claim10_getCommandDispatcher_choice _ _).2 (by simp [httpGet])⟩

/-- C9: the progress helpers are division-safe — `getProgressValue`
returns `0` whenever `loaded` or `total` is `0`, missing or `NaN`
(falsy), and `getProgressData` zeroes every progress field whenever
`total` or `loaded` is `NaN`. -/
theorem claim9_progress_division_safe (e : ClientProgressEvent) (st pd : ℚ) :
    ((e.loaded = none ∨ e.loaded = some .nan ∨ e.loaded = some (.num 0)
        ∨ e.total = none ∨ e.total = some .nan ∨ e.total = some (.num 0)) →
      getProgressValue e = .num 0)
    ∧ ((e.total = some .nan ∨ e.loaded = some .nan) →
      getProgressData st pd e =
        { progress := .num 0, timeLeft := some (.num 0), sizeLeft := .num 0
          total := some (.num 0), loaded := some (.num 0), startTimestamp := st }) := by
  constructor
  · intro h
    have hf : (jsFalsyField e.loaded || jsFalsyField e.total) = true := by
      rcases h with h | h | h | h | h | h <;> simp [h, jsFalsyField]
    simp [getProgressValue, hf]
  · intro h
    rcases h with h | h <;> simp [getProgressData, h]

/-- C9 witness: a zero-`total` event yields progress `0`; a `NaN`-`total`
event yields the zeroed record. -/
theorem claim9_progress_division_safe_witness :
    getProgressValue { loaded := some (.num 3), total := some (.num 0) } = .num 0
    ∧ getProgressData 7 9 { loaded := some (.num 3), total := some .nan } =
      { progress := .num 0, timeLeft := some (.num 0), sizeLeft := .num 0
        total := some (.num 0), loaded := some (.num 0), startTimestamp := 7 } :=
  ⟨(claim9_progress_division_safe _ 0 0).1 (by simp),
    (claim9_progress_division_safe _ 7 9).2 (by simp)⟩

/-- The failing attempt loop from retry counter `r` against limit `n`
makes `n - r + 1` adapter invocations and resolves with the failure
envelope. -/
theorem failingRunAux_eq (k : Nat) : ∀ (n r : Nat), n - r = k →
    ∀ env : Envelope, Dispatcher.failingRunAux n r env = (k + 1, env) := by
  induction k with
  | zero =>
      intro n r hk env
      rw [Dispatcher.failingRunAux]
      have h : ¬(Dispatcher.canRetry (some n) r = true) := by
        simp only [Dispatcher.canRetry, decide_eq_true_eq]
        omega
      simp [h]
  | succ k ih =>
      intro n r hk env
      rw [Dispatcher.failingRunAux]
      have h : Dispatcher.canRetry (some n) r = true := by
        simp only [Dispatcher.canRetry, decide_eq_true_eq]
        omega
      simp [h, ih n (r + 1) (by omega) env]

/-- C4: with `retry = N` and an adapter failing on every attempt the
dispatcher invokes the adapter exactly `N + 1` times and resolves with
the failure envelope; with retry disabled the adapter is invoked exactly
once. -/
theorem claim4_retry_attempt_count (n : Nat) (env : Envelope) :
    Dispatcher.failingRun (some n) env = (n + 1, env)
    ∧ Dispatcher.failingRun none env = (1, env) := by
  refine ⟨?_, rfl⟩
  simpa [Dispatcher.failingRun] using failingRunAux_eq n n 0 (by omega) env

/-- Each run of the array mock from counter `c` resolves call `i` (zero
based) with element `(c + i) mod length`. -/
theorem mockRun_spec {α : Type} (responses : List α) : ∀ (n c : Nat),
    Mocker.mockRun responses n { requestCount := c } =
      (List.range n).map (fun i => responses.get? ((c + i) % responses.length)) := by
  intro n
  induction n with
  | zero => intro c; rfl
  | succ n ih =>
      intro c
      rw [List.range_succ_eq_map]
      simp only [Mocker.mockRun, Mocker.mockNextValue, List.map_cons, List.map_map]
      refine congrArg₂ _ (by rw [Nat.add_zero]) ?_
      rw [ih (c + 1)]
      refine List.map_congr_left ?_
      intro i _
      simp only [Function.comp_apply]
      have : c + 1 + i = c + (i + 1) := by omega
      rw [this]

/-- C7: an array-registered mock of length `L` resolves the invocation
with `N` prior calls using array element `N mod L`; in particular a mock
`[A, B]` resolves calls 1,2,3,4 with `A, B, A, B`. -/
theorem claim7_mock_cycling :
    (∀ (α : Type) (responses : List α) (n : Nat),
      Mocker.mockRun responses n { requestCount := 0 } =
        (List.range n).map (fun i => responses.get? (i % responses.length)))
    ∧ (∀ (α : Type) (A B : α),
      Mocker.mockRun [A, B] 4 { requestCount := 0 } = [some A, some B, some A, some B]) := by
  constructor
  · intro α responses n
    simpa using mockRun_spec responses n 0
  · intro α A B
    simp [Mocker.mockRun, Mocker.mockNextValue]

/-- Reading back the key just stored in the queue map. -/
theorem queuesGet_set_self (l : List (String × Dispatcher.QueueData)) (k : String)
    (q : Dispatcher.QueueData) :
    Dispatcher.queuesGet (Dispatcher.queuesSet l k q) k = some q := by
  induction l with
  | nil => simp [Dispatcher.queuesSet, Dispatcher.queuesGet]
  | cons p rest ih =>
      obtain ⟨k', q'⟩ := p
      by_cases h : k' = k <;> simp [Dispatcher.queuesSet, Dispatcher.queuesGet, h, ih]

/-- Storing under one key leaves every other key of the queue map
unchanged. -/
theorem queuesGet_set_ne (l : List (String × Dispatcher.QueueData)) (k k' : String)
    (q : Dispatcher.QueueData) (h : k' ≠ k) :
    Dispatcher.queuesGet (Dispatcher.queuesSet l k q) k' = Dispatcher.queuesGet l k' := by
  induction l with
  | nil => simp [Dispatcher.queuesSet, Dispatcher.queuesGet, Ne.symm h]
  | cons p rest ih =>
      obtain ⟨k'', q''⟩ := p
      by_cases hk : k'' = k
      · subst hk
        simp [Dispatcher.queuesSet, Dispatcher.queuesGet, Ne.symm h]
      · simp [Dispatcher.queuesSet, Dispatcher.queuesGet, hk, ih]

/-- Reading `getQueue` after `setQueue` at the same key. -/
theorem getQueue_setQueue_self (s : Dispatcher.DispState) (k : String)
    (q : Dispatcher.QueueData) :
    Dispatcher.getQueue (Dispatcher.setQueue s k q) k = q := by
  simp [Dispatcher.getQueue, Dispatcher.setQueue, queuesGet_set_self]

/-- Reading `getQueue` after `setQueue` at a different key. -/
theorem getQueue_setQueue_ne (s : Dispatcher.DispState) (k k' : String)
    (q : Dispatcher.QueueData) (h : k' ≠ k) :
    Dispatcher.getQueue (Dispatcher.setQueue s k q) k' = Dispatcher.getQueue s k' := by
  simp [Dispatcher.getQueue, Dispatcher.setQueue, queuesGet_set_ne _ _ _ _ h]

/-- C2: with `deduplicate = true`, adding while an equivalent request
(same derived key) is queued or running returns the existing element's id
and leaves the state untouched; concretely, two `add` calls on an
initially empty queue return the same request id, create a single storage
element, and invoke the adapter exactly once in total. -/
theorem claim2_deduplication :
    (∀ (s : Dispatcher.DispState) (cmd : Dispatcher.DCommand) (el : Dispatcher.StorageElement),
      cmd.deduplicate = true →
      (Dispatcher.getQueue s cmd.queueKey).requests.find?
        (fun e => e.cmd.cacheKey == cmd.cacheKey) = some el →
      Dispatcher.add s cmd = (el.requestId, s))
    ∧ (∀ (s : Dispatcher.DispState) (cmd : Dispatcher.DCommand),
      cmd.deduplicate = true →
      Dispatcher.getQueue s cmd.queueKey = Dispatcher.emptyQueue →
      (Dispatcher.add (Dispatcher.add s cmd).2 cmd).1 = (Dispatcher.add s cmd).1
        ∧ (Dispatcher.add (Dispatcher.add s cmd).2 cmd).2 = (Dispatcher.add s cmd).2
        ∧ (Dispatcher.add s cmd).2.adapterCalls = s.adapterCalls + 1
        ∧ (Dispatcher.getQueue (Dispatcher.add s cmd).2 cmd.queueKey).requests.length = 1) := by
  constructor
  · intro s cmd el hd hfind
    simp [Dispatcher.add, hd, hfind]
  · intro s cmd hd hq
    have h1 : Dispatcher.add s cmd =
        (s.nextId,
          { queues := Dispatcher.queuesSet s.queues cmd.queueKey
              { requests := [{ requestId := s.nextId, cmd := cmd, retries := 0 }]
                running := [s.nextId] }
            nextId := s.nextId + 1
            adapterCalls := s.adapterCalls + 1 }) := by
      simp [Dispatcher.add, Dispatcher.setQueue, hq, Dispatcher.emptyQueue]
    have hget : Dispatcher.getQueue (Dispatcher.add s cmd).2 cmd.queueKey =
        { requests := [{ requestId := s.nextId, cmd := cmd, retries := 0 }]
          running := [s.nextId] } := by
      rw [h1]
      simp [Dispatcher.getQueue, queuesGet_set_self]
    have h2 : Dispatcher.add (Dispatcher.add s cmd).2 cmd =
        ((Dispatcher.add s cmd).1, (Dispatcher.add s cmd).2) := by
      rw [Dispatcher.add.eq_def, hget]
      simp [hd, List.find?, h1]
    refine ⟨by rw [h2], by rw [h2], by rw [h1], by rw [hget]; rfl⟩

/-- C2 witness: the two-add scenario at a concrete deduplicating command
from the empty dispatcher state. -/
theorem claim2_deduplication_witness :
    (Dispatcher.add
        (Dispatcher.add Dispatcher.initState
          { queueKey := "q", cacheKey := "c", deduplicate := true
            cancelable := false, concurrent := false, retry := none }).2
        { queueKey := "q", cacheKey := "c", deduplicate := true
          cancelable := false, concurrent := false, retry := none }).1
      = (Dispatcher.add Dispatcher.initState
          { queueKey := "q", cacheKey := "c", deduplicate := true
            cancelable := false, concurrent := false, retry := none }).1
    ∧ (Dispatcher.add Dispatcher.initState
        { queueKey := "q", cacheKey := "c", deduplicate := true
          cancelable := false, concurrent := false, retry := none }).2.adapterCalls = 1 := by
  have h := claim2_deduplication.2 Dispatcher.initState
    { queueKey := "q", cacheKey := "c", deduplicate := true
      cancelable := false, concurrent := false, retry := none } rfl rfl
  exact ⟨h.1, h.2.2.1⟩

/-- Dispatching an element that is already running is a no-op (the
re-entry guard of `performRequest`). -/
theorem performRequest_already_running (online : Bool) (t : Dispatcher.DispState)
    (el : Dispatcher.StorageElement)
    (h : el.requestId ∈ (Dispatcher.getQueue t el.cmd.queueKey).running) :
    Dispatcher.performRequest online t el = (t, none) := by
  simp [Dispatcher.performRequest, h]

/-- C5: with the app offline, `performRequest` never contacts the adapter
for the attempt, synthesizes the response
`{data: null, error: offline-error, success: false, extra: {}, isOffline: true}`,
and resolves the element immediately (it is removed, so no retry is
attempted). -/
theorem claim5_offline_short_circuit (s : Dispatcher.DispState)
    (el : Dispatcher.StorageElement)
    (h : el.requestId ∉ (Dispatcher.getQueue s el.cmd.queueKey).running) :
    (Dispatcher.performRequest false s el).2 = some offlineEnvelope
    ∧ offlineEnvelope =
        { data := none, error := some .offline, success := false, extra := [], isOffline := true }
    ∧ (Dispatcher.performRequest false s el).1.adapterCalls = s.adapterCalls
    ∧ (Dispatcher.getQueue (Dispatcher.performRequest false s el).1 el.cmd.queueKey).requests.find?
        (fun e => e.requestId == el.requestId) = none := by
  have hperf : Dispatcher.performRequest false s el =
      (Dispatcher.setQueue s el.cmd.queueKey
        { requests := (Dispatcher.getQueue s el.cmd.queueKey).requests.filter
            (fun e => e.requestId != el.requestId)
          running := (Dispatcher.getQueue s el.cmd.queueKey).running },
        some offlineEnvelope) := by
    simp [Dispatcher.performRequest, h]
  refine ⟨by rw [hperf], rfl, by rw [hperf]; rfl, ?_⟩
  rw [hperf]
  simp only [getQueue_setQueue_self]
  rw [List.find?_eq_none]
  intro e he
  simp only [List.mem_filter] at he
  simpa using he.2

/-- C5 witness: the offline short-circuit at a concrete element and the
empty dispatcher state. -/
theorem claim5_offline_short_circuit_witness :
    (Dispatcher.performRequest false Dispatcher.initState
        { requestId := 0
          cmd := { queueKey := "q", cacheKey := "c", deduplicate := false
                   cancelable := false, concurrent := false, retry := none }
          retries := 0 }).2 = some offlineEnvelope
    ∧ (Dispatcher.performRequest false Dispatcher.initState
        { requestId := 0
          cmd := { queueKey := "q", cacheKey := "c", deduplicate := false
                   cancelable := false, concurrent := false, retry := none }
          retries := 0 }).1.adapterCalls = 0 := by
  have h := claim5_offline_short_circuit Dispatcher.initState
    { requestId := 0
      cmd := { queueKey := "q", cacheKey := "c", deduplicate := false
               cancelable := false, concurrent := false, retry := none }
      retries := 0 } (by decide)
  exact ⟨h.1, h.2.2.1⟩

/-- C8: `performRequest` is idempotent under re-entry — dispatching the
same storage element again while its first dispatch is in flight is a
no-op, so the adapter is invoked exactly once. -/
theorem claim8_performRequest_reentry (s : Dispatcher.DispState)
    (el : Dispatcher.StorageElement)
    (h : el.requestId ∉ (Dispatcher.getQueue s el.cmd.queueKey).running) :
    (Dispatcher.performRequest true (Dispatcher.performRequest true s el).1 el).1
      = (Dispatcher.performRequest true s el).1
    ∧ (Dispatcher.performRequest true s el).1.adapterCalls = s.adapterCalls + 1 := by
  have h1 : Dispatcher.performRequest true s el =
      ({ Dispatcher.setQueue s el.cmd.queueKey
          { requests := (Dispatcher.getQueue s el.cmd.queueKey).requests
            running := (Dispatcher.getQueue s el.cmd.queueKey).running ++ [el.requestId] }
          with adapterCalls := s.adapterCalls + 1 }, none) := by
    simp [Dispatcher.performRequest, h]
  have hget : Dispatcher.getQueue (Dispatcher.performRequest true s el).1 el.cmd.queueKey =
      { requests := (Dispatcher.getQueue s el.cmd.queueKey).requests
        running := (Dispatcher.getQueue s el.cmd.queueKey).running ++ [el.requestId] } := by
    rw [h1]
    simp [Dispatcher.getQueue, Dispatcher.setQueue, queuesGet_set_self]
  constructor
  · have hmem : el.requestId ∈
        (Dispatcher.getQueue (Dispatcher.performRequest true s el).1 el.cmd.queueKey).running := by
      rw [hget]
      simp
    rw [performRequest_already_running true _ el hmem]
  · rw [h1]

/-- C8 witness: double dispatch of a concrete element from the empty
dispatcher state performs exactly one adapter invocation. -/
theorem claim8_performRequest_reentry_witness :
    (Dispatcher.performRequest true
        (Dispatcher.performRequest true Dispatcher.initState
          { requestId := 0
            cmd := { queueKey := "q", cacheKey := "c", deduplicate := false
                     cancelable := false, concurrent := false, retry := none }
            retries := 0 }).1
        { requestId := 0
          cmd := { queueKey := "q", cacheKey := "c", deduplicate := false
                   cancelable := false, concurrent := false, retry := none }
          retries := 0 }).1
      = (Dispatcher.performRequest true Dispatcher.initState
          { requestId := 0
            cmd := { queueKey := "q", cacheKey := "c", deduplicate := false
                     cancelable := false, concurrent := false, retry := none }
            retries := 0 }).1
    ∧ (Dispatcher.performRequest true Dispatcher.initState
        { requestId := 0
          cmd := { queueKey := "q", cacheKey := "c", deduplicate := false
                   cancelable := false, concurrent := false, retry := none }
          retries := 0 }).1.adapterCalls = 1 :=
  claim8_performRequest_reentry Dispatcher.initState
    { requestId := 0
      cmd := { queueKey := "q", cacheKey := "c", deduplicate := false
               cancelable := false, concurrent := false, retry := none }
      retries := 0 } (by decide)

/-- Lemma: `getQueue` ignores the counter fields of the dispatcher state. -/
theorem getQueue_update_counters (s : Dispatcher.DispState) (n a : Nat) (k : String) :
    Dispatcher.getQueue { queues := s.queues, nextId := n, adapterCalls := a } k
      = Dispatcher.getQueue s k := rfl

/-- Lemma: `Dispatcher.add` preserves the non-concurrent queue invariant at `k`
when every command targeting `k` is non-concurrent. -/
theorem add_preserves_nc (s : Dispatcher.DispState) (cmd : Dispatcher.DCommand) (k : String)
    (hcc : cmd.queueKey = k → cmd.concurrent = false)
    (h1 : Dispatcher.allNonConcurrent (Dispatcher.getQueue s k))
    (h2 : (Dispatcher.getQueue s k).running.length ≤ 1) :
    Dispatcher.allNonConcurrent (Dispatcher.getQueue (Dispatcher.add s cmd).2 k)
      ∧ (Dispatcher.getQueue (Dispatcher.add s cmd).2 k).running.length ≤ 1 := by
  cases hdup : (if cmd.deduplicate then
      (Dispatcher.getQueue s cmd.queueKey).requests.find?
        (fun el => el.cmd.cacheKey == cmd.cacheKey) else none) with
  | some el =>
      have hs : (Dispatcher.add s cmd).2 = s := by simp [Dispatcher.add, hdup]
      rw [hs]
      exact ⟨h1, h2⟩
  | none =>
      by_cases hc : (cmd.cancelable && !(Dispatcher.getQueue s cmd.queueKey).running.isEmpty) = true
      · have hstate : (Dispatcher.add s cmd).2 =
            { Dispatcher.setQueue s cmd.queueKey
                { requests := (Dispatcher.getQueue s cmd.queueKey).requests.filter
                    (fun el => !(Dispatcher.getQueue s cmd.queueKey).running.contains el.requestId)
                    ++ [{ requestId := s.nextId, cmd := cmd, retries := 0 }]
                  running := [s.nextId] } with
              nextId := s.nextId + 1
              adapterCalls := s.adapterCalls + 1 } := by
          simp [Dispatcher.add, hdup, hc]
        by_cases hk : cmd.queueKey = k
        · subst hk
          rw [hstate, getQueue_update_counters, getQueue_setQueue_self]
          constructor
          · intro e he
            rcases List.mem_append.mp he with he' | he'
            · exact h1 e (List.mem_of_mem_filter he')
            · rcases List.mem_singleton.mp he'
              exact hcc rfl
          · simp
        · rw [hstate, getQueue_update_counters, getQueue_setQueue_ne _ _ _ _ (Ne.symm hk)]
          exact ⟨h1, h2⟩
      · by_cases hs : (cmd.concurrent || (Dispatcher.getQueue s cmd.queueKey).running.isEmpty) = true
        · have hstate : (Dispatcher.add s cmd).2 =
              { Dispatcher.setQueue s cmd.queueKey
                  { requests := (Dispatcher.getQueue s cmd.queueKey).requests
                      ++ [{ requestId := s.nextId, cmd := cmd, retries := 0 }]
                    running := (Dispatcher.getQueue s cmd.queueKey).running ++ [s.nextId] } with
                nextId := s.nextId + 1
                adapterCalls := s.adapterCalls + 1 } := by
            simp [Dispatcher.add, hdup, hc, hs]
          by_cases hk : cmd.queueKey = k
          · subst hk
            have hconc : cmd.concurrent = false := hcc rfl
            have hemp : (Dispatcher.getQueue s cmd.queueKey).running = [] := by
              rw [hconc] at hs
              simpa [List.isEmpty_iff] using hs
            rw [hstate, getQueue_update_counters, getQueue_setQueue_self]
            constructor
            · intro e he
              rcases List.mem_append.mp he with he' | he'
              · exact h1 e he'
              · rcases List.mem_singleton.mp he'
                exact hconc
            · simp [hemp]
          · rw [hstate, getQueue_update_counters, getQueue_setQueue_ne _ _ _ _ (Ne.symm hk)]
            exact ⟨h1, h2⟩
        · have hstate : (Dispatcher.add s cmd).2 =
              { Dispatcher.setQueue s cmd.queueKey
                  { requests := (Dispatcher.getQueue s cmd.queueKey).requests
                      ++ [{ requestId := s.nextId, cmd := cmd, retries := 0 }]
                    running := (Dispatcher.getQueue s cmd.queueKey).running } with
                nextId := s.nextId + 1
                adapterCalls := s.adapterCalls + 0 } := by
            simp [Dispatcher.add, hdup, hc, hs]
          by_cases hk : cmd.queueKey = k
          · subst hk
            rw [hstate, getQueue_update_counters, getQueue_setQueue_self]
            constructor
            · intro e he
              rcases List.mem_append.mp he with he' | he'
              · exact h1 e he'
              · rcases List.mem_singleton.mp he'
                exact hcc rfl
            · exact h2
          · rw [hstate, getQueue_update_counters, getQueue_setQueue_ne _ _ _ _ (Ne.symm hk)]
            exact ⟨h1, h2⟩

/-- Lemma: `Dispatcher.flushQueue` preserves the non-concurrent queue invariant
at `k`, whichever queue is flushed. -/
theorem flush_preserves_nc (s : Dispatcher.DispState) (k flushKey : String)
    (h1 : Dispatcher.allNonConcurrent (Dispatcher.getQueue s k))
    (h2 : (Dispatcher.getQueue s k).running.length ≤ 1) :
    Dispatcher.allNonConcurrent (Dispatcher.getQueue (Dispatcher.flushQueue s flushKey) k)
      ∧ (Dispatcher.getQueue (Dispatcher.flushQueue s flushKey) k).running.length ≤ 1 := by
  cases hfind : (Dispatcher.getQueue s flushKey).requests.find?
      (fun el => !(Dispatcher.getQueue s flushKey).running.contains el.requestId) with
  | none =>
      have hs : Dispatcher.flushQueue s flushKey = s := by
        simp only [Dispatcher.flushQueue]
        rw [hfind]
      rw [hs]
      exact ⟨h1, h2⟩
  | some next =>
      by_cases hcond : (next.cmd.concurrent || (Dispatcher.getQueue s flushKey).running.isEmpty) = true
      · have hstate : Dispatcher.flushQueue s flushKey =
            { Dispatcher.setQueue s flushKey
                { requests := (Dispatcher.getQueue s flushKey).requests
                  running := (Dispatcher.getQueue s flushKey).running ++ [next.requestId] } with
              adapterCalls := s.adapterCalls + 1 } := by
          simp only [Dispatcher.flushQueue]
          rw [hfind]
          exact if_pos hcond
        by_cases hk : flushKey = k
        · subst hk
          have hnextmem : next ∈ (Dispatcher.getQueue s flushKey).requests :=
            List.mem_of_find?_eq_some hfind
          have hnextnc : next.cmd.concurrent = false := h1 next hnextmem
          have hemp : (Dispatcher.getQueue s flushKey).running = [] := by
            rw [hnextnc] at hcond
            simpa [List.isEmpty_iff] using hcond
          rw [hstate]
          have hq : Dispatcher.getQueue
              ({ Dispatcher.setQueue s flushKey
                  { requests := (Dispatcher.getQueue s flushKey).requests
                    running := (Dispatcher.getQueue s flushKey).running ++ [next.requestId] } with
                adapterCalls := s.adapterCalls + 1 }) flushKey =
              { requests := (Dispatcher.getQueue s flushKey).requests
                running := (Dispatcher.getQueue s flushKey).running ++ [next.requestId] } := by
            rw [getQueue_update_counters, getQueue_setQueue_self]
          rw [hq]
          exact ⟨fun e he => h1 e he, by simp [hemp]⟩
        · rw [hstate, getQueue_update_counters, getQueue_setQueue_ne _ _ _ _ (Ne.symm hk)]
          exact ⟨h1, h2⟩
      · have hs : Dispatcher.flushQueue s flushKey = s := by
          simp only [Dispatcher.flushQueue]
          rw [hfind]
          exact if_neg hcond
        rw [hs]
        exact ⟨h1, h2⟩

/-- Lemma: `Dispatcher.finishRequest` preserves the non-concurrent queue
invariant at `k`, whichever element of whichever queue resolves. -/
theorem finish_preserves_nc (s : Dispatcher.DispState) (k finishKey : String) (id : Nat)
    (h1 : Dispatcher.allNonConcurrent (Dispatcher.getQueue s k))
    (h2 : (Dispatcher.getQueue s k).running.length ≤ 1) :
    Dispatcher.allNonConcurrent (Dispatcher.getQueue (Dispatcher.finishRequest s finishKey id) k)
      ∧ (Dispatcher.getQueue (Dispatcher.finishRequest s finishKey id) k).running.length ≤ 1 := by
  have hdef : Dispatcher.finishRequest s finishKey id =
      Dispatcher.flushQueue
        (Dispatcher.setQueue s finishKey
          { requests := (Dispatcher.getQueue s finishKey).requests.filter
              (fun el => el.requestId != id)
            running := (Dispatcher.getQueue s finishKey).running.filter (fun i => i != id) })
        finishKey := rfl
  rw [hdef]
  apply flush_preserves_nc
  · by_cases hk : finishKey = k
    · subst hk
      rw [getQueue_setQueue_self]
      intro e he
      exact h1 e (List.mem_of_mem_filter he)
    · rw [getQueue_setQueue_ne _ _ _ _ (Ne.symm hk)]
      exact h1
  · by_cases hk : finishKey = k
    · subst hk
      rw [getQueue_setQueue_self]
      exact le_trans (List.length_filter_le _ _) h2
    · rw [getQueue_setQueue_ne _ _ _ _ (Ne.symm hk)]
      exact h2

/-- In every state reachable while all commands added to queue `k` are
non-concurrent, queue `k` holds only non-concurrent elements and at most
one of them is running. -/
theorem reachableNC_invariant (k : String) (s : Dispatcher.DispState)
    (h : Dispatcher.ReachableNC k s) :
    Dispatcher.allNonConcurrent (Dispatcher.getQueue s k)
      ∧ (Dispatcher.getQueue s k).running.length ≤ 1 := by
  induction h with
  | init =>
      constructor
      · intro e he
        simp [Dispatcher.getQueue, Dispatcher.initState, Dispatcher.queuesGet,
          Dispatcher.emptyQueue] at he
      · simp [Dispatcher.getQueue, Dispatcher.initState, Dispatcher.queuesGet,
          Dispatcher.emptyQueue]
  | stepAdd s cmd hr hcc ih => exact add_preserves_nc s cmd k hcc ih.1 ih.2
  | stepFinish s key id hr ih => exact finish_preserves_nc s k key id ih.1 ih.2

/-- C3: in every dispatcher state reachable while the requests of queue
`k` all have `concurrent = false`, at most one request of that queue is
running; concretely, two `add` calls of a non-concurrent command keep
exactly one request running through the whole lifetime and make two
adapter invocations in total. -/
theorem claim3_nonconcurrent_queue :
    (∀ (k : String) (s : Dispatcher.DispState), Dispatcher.ReachableNC k s →
      (Dispatcher.getQueue s k).running.length ≤ 1)
    ∧ (let cmdNC : Dispatcher.DCommand :=
        { queueKey := "q", cacheKey := "c", deduplicate := false
          cancelable := false, concurrent := false, retry := none }
       let s1 := (Dispatcher.add Dispatcher.initState cmdNC).2
       let s2 := (Dispatcher.add s1 cmdNC).2
       let s3 := Dispatcher.finishRequest s2 "q" 0
       let s4 := Dispatcher.finishRequest s3 "q" 1
       (Dispatcher.getQueue s1 "q").running.length = 1 ∧ s1.adapterCalls = 1
         ∧ (Dispatcher.getQueue s2 "q").running.length = 1 ∧ s2.adapterCalls = 1
         ∧ (Dispatcher.getQueue s3 "q").running.length = 1 ∧ s3.adapterCalls = 2
         ∧ (Dispatcher.getQueue s4 "q").running.length = 0 ∧ s4.adapterCalls = 2) := by
  constructor
  · intro k s h
    exact (reachableNC_invariant k s h).2
  · decide

/-- C3 witness: the invariant applied to the concrete reachable state
after one `add` of a non-concurrent command. -/
theorem claim3_nonconcurrent_queue_witness :
    (Dispatcher.getQueue
      (Dispatcher.add Dispatcher.initState
        { queueKey := "q", cacheKey := "c", deduplicate := false
          cancelable := false, concurrent := false, retry := none }).2 "q").running.length ≤ 1 :=
  claim3_nonconcurrent_queue.1 "q" _
    (Dispatcher.ReachableNC.stepAdd _ _ Dispatcher.ReachableNC.init (fun _ => rfl))

/-- Splitting a separator-joined list: when neither prefix contains the
separator, equality of the joined lists forces equality of the parts. -/
theorem sep_append_inj (sep : Char) :
    ∀ (a a' r r' : List Char), sep ∉ a → sep ∉ a' →
      a ++ sep :: r = a' ++ sep :: r' → a = a' ∧ r = r' := by
  intro a
  induction a with
  | nil =>
      intro a' r r' ha ha' h
      cases a' with
      | nil => simpa using h
      | cons x xs =>
          simp only [List.nil_append, List.cons_append, List.cons.injEq] at h
          exact absurd (h.1 ▸ List.mem_cons_self x xs) ha'
  | cons x xs ih =>
      intro a' r r' ha ha' h
      cases a' with
      | nil =>
          simp only [List.cons_append, List.nil_append, List.cons.injEq] at h
          exact absurd (h.1.symm ▸ List.mem_cons_self x xs) ha
      | cons y ys =>
          simp only [List.cons_append, List.cons.injEq] at h
          have hxs : sep ∉ xs := fun hm => ha (List.mem_cons_of_mem x hm)
          have hys : sep ∉ ys := fun hm => ha' (List.mem_cons_of_mem y hm)
          obtain ⟨h1, h2⟩ := ih ys r r' hxs hys h.2
          exact ⟨by rw [h.1, h1], h2⟩

/-- The character data of a three-part underscore-joined key. -/
theorem key_data (m e q : String) :
    (m ++ "_" ++ e ++ "_" ++ q).data = m.data ++ '_' :: (e.data ++ '_' :: q.data) := by
  show m.data ++ ['_'] ++ e.data ++ ['_'] ++ q.data
      = m.data ++ '_' :: (e.data ++ '_' :: q.data)
  simp

/-- An underscore-joined key determines its parts when the first two
contain no underscore. -/
theorem key_parts_inj (m1 e1 q1 m2 e2 q2 : String)
    (hm1 : '_' ∉ m1.data) (hm2 : '_' ∉ m2.data)
    (he1 : '_' ∉ e1.data) (he2 : '_' ∉ e2.data)
    (h : m1 ++ "_" ++ e1 ++ "_" ++ q1 = m2 ++ "_" ++ e2 ++ "_" ++ q2) :
    m1 = m2 ∧ e1 = e2 ∧ q1 = q2 := by
  have hd : m1.data ++ '_' :: (e1.data ++ '_' :: q1.data)
      = m2.data ++ '_' :: (e2.data ++ '_' :: q2.data) := by
    rw [← key_data, ← key_data, h]
  obtain ⟨hm, hrest⟩ := sep_append_inj '_' m1.data m2.data _ _ hm1 hm2 hd
  obtain ⟨he, hq⟩ := sep_append_inj '_' e1.data e2.data _ _ he1 he2 hrest
  exact ⟨congrArg String.mk hm, congrArg String.mk he, congrArg String.mk hq⟩

/-- C1 counterexample: two command descriptors that differ in both
endpoint and query params share the same cache key (the `_` separator is
not escaped inside the joined fields), refuting collision-freedom. -/
theorem claim1_collision_counterexample :
    getCommandKey (.inst (.vStr "GET") (.vStr "a_b") (.vStr "") "") false
      = getCommandKey (.inst (.vStr "GET") (.vStr "a") (.vStr "b_") "") false
    ∧ (JSValue.vStr "a_b" : JSValue) ≠ JSValue.vStr "a"
    ∧ (JSValue.vStr "" : JSValue) ≠ JSValue.vStr "b_" := by
  refine ⟨rfl, by decide, by decide⟩

/-- The cache key of any command at `useInitialValues := false` is the
stringified method, endpoint and query params joined with `_`. -/
theorem getCommandKey_false_eq (c : CommandLike) :
    getCommandKey c false =
      stringifyKey c.methodV ++ "_" ++ stringifyKey c.endpointV ++ "_"
        ++ stringifyKey c.queryParamsV := by
  cases c <;> rfl

/-- C1 (amended): descriptors with identical method, endpoint and query
params always receive identical cache keys. Collision-freedom over the
raw fields fails and only a stringified form survives: when the
stringified method and endpoint contain no `_` separator, equal keys
force equal stringified method, endpoint and query params. Descriptors
whose fields differ but stringify identically still share a key — the
last conjunct exhibits query params `undefined` versus `""`, which both
stringify to `""` (see the counterexample for the `_`-separator
collisions). -/
theorem claim1_commandKey_amended :
    (∀ c1 c2 : CommandLike, c1.methodV = c2.methodV → c1.endpointV = c2.endpointV →
      c1.queryParamsV = c2.queryParamsV →
      getCommandKey c1 false = getCommandKey c2 false)
    ∧ (∀ c1 c2 : CommandLike,
      '_' ∉ (stringifyKey c1.methodV).data → '_' ∉ (stringifyKey c2.methodV).data →
      '_' ∉ (stringifyKey c1.endpointV).data → '_' ∉ (stringifyKey c2.endpointV).data →
      getCommandKey c1 false = getCommandKey c2 false →
      stringifyKey c1.methodV = stringifyKey c2.methodV
        ∧ stringifyKey c1.endpointV = stringifyKey c2.endpointV
        ∧ stringifyKey c1.queryParamsV = stringifyKey c2.queryParamsV)
    ∧ getCommandKey (.inst (.vStr "GET") (.vStr "users") .vUndefined "") false
        = getCommandKey (.inst (.vStr "GET") (.vStr "users") (.vStr "") "") false := by
  refine ⟨?_, ?_, rfl⟩
  · intro c1 c2 h1 h2 h3
    rw [getCommandKey_false_eq, getCommandKey_false_eq, h1, h2, h3]
  · intro c1 c2 hm1 hm2 he1 he2 h
    rw [getCommandKey_false_eq, getCommandKey_false_eq] at h
    exact key_parts_inj _ _ _ _ _ _ hm1 hm2 he1 he2 h

/-- C1 witness: equal field tuples give equal keys whatever the route
template; and at a concrete pair whose query params differ as values
(`undefined` versus `""`) but stringify identically, the key-level
injectivity yields exactly the stringified equality. -/
theorem claim1_commandKey_amended_witness :
    getCommandKey (.inst (.vStr "GET") (.vStr "users") (.vStr "a=1") "tplA") false
      = getCommandKey (.inst (.vStr "GET") (.vStr "users") (.vStr "a=1") "tplB") false
    ∧ stringifyKey JSValue.vUndefined = stringifyKey (JSValue.vStr "") :=
  ⟨claim1_commandKey_amended.1 _ _ rfl rfl rfl,
    (claim1_commandKey_amended.2.1
      (.inst (.vStr "GET") (.vStr "users") .vUndefined "x")
      (.inst (.vStr "GET") (.vStr "users") (.vStr "") "y")
      (by decide) (by decide) (by decide) (by decide) rfl).2.2⟩

end Theorems

end HyperFetch
